import Mathlib

/-
Verification of the GeoJSON Feature codec (src/src/feature.rs) against its
specification.  The JSON layer (serde_json with its sorted map), the Geometry
module, the `util` field-extraction helpers and the `Error` type are external
collaborators of the shown core; they are modelled from the spec where needed.
Machine representation notes: JSON numbers are modelled as an integer or a
float literal kept as text, since the codec never inspects a number's content.
-/

set_option maxHeartbeats 1000000

namespace GeoJson

/-- JSON number as stored by the external JSON layer: the integer/float
distinction of the original literal is preserved and never inspected by this
core. -/
inductive JNumber where
  | int (i : Int)
  | float (r : String)
deriving DecidableEq, Repr

/-- The external JSON layer's value type: tagged union over null, bool,
number, string, array, object.  Objects are key/value sequences (the real
backing store is a map sorted by key; sortedness is stated as a hypothesis
where a proof needs it). -/
inductive JsonValue where
  | null
  | bool (b : Bool)
  | num (n : JNumber)
  | str (s : String)
  | arr (elems : List JsonValue)
  | obj (entries : List (String × JsonValue))
deriving Repr

/-- The external JSON layer's object type. -/
abbrev JsonObject := List (String × JsonValue)

/-- Map lookup: first binding of the key (the real map has unique keys). -/
def objGet (object : JsonObject) (key : String) : Option JsonValue :=
  match object with
  | [] => none
  | (k, v) :: rest => if k = key then some v else objGet rest key

/-- Map removal: drops every binding of the key (the real map has at most
one). -/
def objRemove (object : JsonObject) (key : String) : JsonObject :=
  match object with
  | [] => []
  | (k, v) :: rest =>
    if k = key then objRemove rest key else (k, v) :: objRemove rest key

/-- Map insertion, mirroring the sorted map backing serde_json's object:
replaces the value if the key is present, otherwise inserts at the sorted
position. -/
def objInsert (object : JsonObject) (key : String) (value : JsonValue) :
    JsonObject :=
  match object with
  | [] => [(key, value)]
  | (k, v) :: rest =>
    if key = k then (key, value) :: rest
    else if key < k then (key, value) :: (k, v) :: rest
    else (k, v) :: objInsert rest key value

/-- Folding a sequence of insertions into an object, the embedding of a Rust
for-loop of map.insert calls. -/
def foldIns (object : JsonObject) (entries : List (String × JsonValue)) :
    JsonObject :=
  entries.foldl (fun m kv => objInsert m kv.1 kv.2) object

/-- The sortedness invariant of the external map type: keys strictly
increasing. -/
abbrev ObjSorted (object : JsonObject) : Prop :=
  object.Pairwise (fun a b => a.1 < b.1)

def JsonValue.isNull : JsonValue → Bool
  | .null => true
  | _ => false

/-- Modelled from the spec: the external Geometry collaborator, a black box
with its own JSON value encoding and decoding. -/
structure GeometryCodec (G : Type) where
  toJson : G → JsonValue
  ofJson : JsonValue → Option G

/-- Feature identifier: closed union of a string and a number
(feature.rs lines 119-123). -/
inductive Id where
  | String (s : String)
  | Number (n : JNumber)
deriving DecidableEq, Repr

/-- Modelled from the spec: the crate-level Error type, restricted to the
error classes of the spec's taxonomy that this core can produce. -/
inductive Error where
  | GeoJsonUnknownType
  | GeoJsonExpectedObject
  | FeatureInvalidGeometryValue
  | FeatureInvalidIdentifierType
  | PropertiesExpectedObjectOrNull
  | MalformedBbox
  | ExpectedProperty (name : String)
  | ExpectedStringValue
deriving DecidableEq, Repr

/-- Modelled from the spec: the Display rendering of the typed error, used by
the generic Deserialize hook.  The exact message text is immaterial to the
claims. -/
def Error.render : Error → String
  | .GeoJsonUnknownType => "unknown GeoJSON object type"
  | .GeoJsonExpectedObject => "expected a JSON object"
  | .FeatureInvalidGeometryValue => "invalid geometry value"
  | .FeatureInvalidIdentifierType => "invalid identifier type"
  | .PropertiesExpectedObjectOrNull => "properties must be an object or null"
  | .MalformedBbox => "malformed bounding box"
  | .ExpectedProperty n => "expected property " ++ n
  | .ExpectedStringValue => "expected a string value"

/-- The typed Feature (generic as FeatureBase is generic over the position
representation; the parameter G stands for the external Geometry type). -/
structure FeatureBase (G : Type) where
  bbox : Option (List JNumber)
  geometry : Option G
  id : Option Id
  properties : Option JsonObject
  foreign_members : Option JsonObject

/-- serde_json::to_value on an Option of Geometry: None serializes to JSON
null, Some to the geometry's own encoding (a black-box total serializer; on
these types to_value cannot fail since every key is a string by type). -/
def toValueOptGeometry {G : Type} (C : GeometryCodec G) :
    Option G → JsonValue
  | none => .null
  | some g => C.toJson g

/-- serde_json::to_value on a bounding box (sequence of numbers): a JSON
array of numbers. -/
def toValueBbox (bbox : List JNumber) : JsonValue :=
  .arr (bbox.map .num)

/-- serde_json::to_value through Id's Serialize impl (feature.rs lines
125-135): the string variant serializes as a JSON string, the number variant
as a JSON number. -/
def idToJson : Id → JsonValue
  | .String s => .str s
  | .Number n => .num n

/-- The encoder, From of &Feature for JsonObject (feature.rs lines 21-53):
a linear field-by-field assembly of map inserts. -/
def featureToJsonObject {G : Type} (C : GeometryCodec G)
    (feature : FeatureBase G) : JsonObject :=
  let map : JsonObject := []
  let map := objInsert map "type" (.str "Feature")
  let map := objInsert map "geometry" (toValueOptGeometry C feature.geometry)
  let map :=
    match feature.properties with
    | some properties => objInsert map "properties" (.obj properties)
    | none => objInsert map "properties" (.obj [])
  let map :=
    match feature.bbox with
    | some bbox => objInsert map "bbox" (toValueBbox bbox)
    | none => map
  let map :=
    match feature.id with
    | some id => objInsert map "id" (idToJson id)
    | none => map
  match feature.foreign_members with
  | some foreign_members => foldIns map foreign_members
  | none => map

/-- Modelled from the spec: util::expect_type, the type-tag helper.  Returns
the tag string (removing the consumed key) or fails: missing key and
non-string value are its own error classes. -/
def expect_type (object : JsonObject) : Except Error (String × JsonObject) :=
  match objGet object "type" with
  | none => .error (.ExpectedProperty "type")
  | some (.str s) => .ok (s, objRemove object "type")
  | some _ => .error .ExpectedStringValue

/-- Modelled from the spec: util::get_geometry.  The geometry key is
required; JSON null means no geometry; otherwise the value must decode as a
Geometry document, else the invalid-geometry-value error. -/
def get_geometry {G : Type} (C : GeometryCodec G) (object : JsonObject) :
    Except Error (Option G × JsonObject) :=
  match objGet object "geometry" with
  | none => .error (.ExpectedProperty "geometry")
  | some v =>
    if v.isNull then .ok (none, objRemove object "geometry")
    else
      match C.ofJson v with
      | some g => .ok (some g, objRemove object "geometry")
      | none => .error .FeatureInvalidGeometryValue

/-- Modelled from the spec: util::get_properties.  The properties key is
required; null means None; an object is kept verbatim; any other type is an
error. -/
def get_properties (object : JsonObject) :
    Except Error (Option JsonObject × JsonObject) :=
  match objGet object "properties" with
  | none => .error (.ExpectedProperty "properties")
  | some .null => .ok (none, objRemove object "properties")
  | some (.obj props) => .ok (some props, objRemove object "properties")
  | some _ => .error .PropertiesExpectedObjectOrNull

/-- Modelled from the spec: util::get_id.  An absent key is None; a string or
number becomes the matching Id variant; anything else (including explicit
null) is the invalid-identifier-type error. -/
def get_id (object : JsonObject) :
    Except Error (Option Id × JsonObject) :=
  match objGet object "id" with
  | none => .ok (none, object)
  | some (.str s) => .ok (some (.String s), objRemove object "id")
  | some (.num n) => .ok (some (.Number n), objRemove object "id")
  | some _ => .error .FeatureInvalidIdentifierType

/-- Parsing a JSON array's elements as a sequence of numbers. -/
def parseNums : List JsonValue → Option (List JNumber)
  | [] => some []
  | .num n :: rest => (parseNums rest).map (n :: ·)
  | _ => none

/-- Modelled from the spec: util::get_bbox.  An absent key is None; a present
value must be an array of numbers, else the malformed-bbox error. -/
def get_bbox (object : JsonObject) :
    Except Error (Option (List JNumber) × JsonObject) :=
  match objGet object "bbox" with
  | none => .ok (none, object)
  | some (.arr elems) =>
    match parseNums elems with
    | some ns => .ok (some ns, objRemove object "bbox")
    | none => .error .MalformedBbox
  | some _ => .error .MalformedBbox

/-- Modelled from the spec: util::get_foreign_members.  Consumes the
remainder of the object after all recognized keys were removed; an empty
remainder is None. -/
def get_foreign_members (object : JsonObject) :
    Except Error (Option JsonObject) :=
  match object with
  | [] => .ok none
  | rest => .ok (some rest)

/-- The decoder, TryFrom of JsonObject for FeatureBase (feature.rs lines
65-80): type-tag check, then the field extractions in source order, each
propagating its error with the question-mark operator. -/
def FeatureBase.try_from_object {G : Type} (C : GeometryCodec G)
    (object : JsonObject) : Except Error (FeatureBase G) :=
  match expect_type object with
  | .error e => .error e
  | .ok (tag, object) =>
    if tag = "Feature" then
      match get_geometry C object with
      | .error e => .error e
      | .ok (geometry, object) =>
        match get_properties object with
        | .error e => .error e
        | .ok (properties, object) =>
          match get_id object with
          | .error e => .error e
          | .ok (id, object) =>
            match get_bbox object with
            | .error e => .error e
            | .ok (bbox, object) =>
              match get_foreign_members object with
              | .error e => .error e
              | .ok foreign_members =>
                .ok { bbox, geometry, id, properties, foreign_members }
    else .error Error.GeoJsonUnknownType

/-- FeatureBase::from_json_object (feature.rs lines 56-58). -/
def FeatureBase.from_json_object {G : Type} (C : GeometryCodec G)
    (object : JsonObject) : Except Error (FeatureBase G) :=
  FeatureBase.try_from_object C object

/-- The decoder's value entry point, TryFrom of JsonValue for FeatureBase
(feature.rs lines 82-92): an object delegates to the object decoder,
anything else is the expected-object error. -/
def FeatureBase.try_from_value {G : Type} (C : GeometryCodec G)
    (value : JsonValue) : Except Error (FeatureBase G) :=
  match value with
  | .obj obj => FeatureBase.try_from_object C obj
  | _ => .error .GeoJsonExpectedObject

/-- FeatureBase::from_json_value (feature.rs lines 60-62). -/
def FeatureBase.from_json_value {G : Type} (C : GeometryCodec G)
    (value : JsonValue) : Except Error (FeatureBase G) :=
  FeatureBase.try_from_value C value

/-- The recognized Feature keys, shared by decode and encode. -/
def reservedKeys : List String :=
  ["type", "geometry", "properties", "bbox", "id"]

/-- A well-formed in-memory Feature per the spec's data model: the foreign
member map, when present, is nonempty (it exists only when foreign keys
exist), is sorted like every object of the external map type, and holds no
recognized key. -/
def ValidFeature {G : Type} (f : FeatureBase G) : Prop :=
  ∀ fm, f.foreign_members = some fm →
    fm ≠ [] ∧ ObjSorted fm ∧ ∀ a ∈ fm, a.1 ∉ reservedKeys

/-- serde_json::to_value of the geometry option, with to_value's failure
channel made explicit.  to_value fails only when a Serialize impl fails or a
map key is not a string; the geometry's own serializer is total (it assembles
plain JSON data with string keys), so this always succeeds. -/
def toValueOptGeometryChecked {G : Type} (C : GeometryCodec G)
    (og : Option G) : Option JsonValue :=
  some (toValueOptGeometry C og)

/-- serde_json::to_value of a stored property object: its keys are strings by
type, so serialization cannot fail. -/
def toValuePropertiesChecked (properties : JsonObject) : Option JsonValue :=
  some (.obj properties)

/-- serde_json::to_value of Some(serde_json::Map::new()): always the empty
JSON object. -/
def toValueEmptyPropertiesChecked : Option JsonValue :=
  some (.obj [])

/-- serde_json::to_value of a bounding box: a sequence of numbers always
serializes. -/
def toValueBboxChecked (bbox : List JNumber) : Option JsonValue :=
  some (toValueBbox bbox)

/-- serde_json::to_value through Id's Serialize impl: a string or a number
always serializes. -/
def toValueIdChecked (id : Id) : Option JsonValue :=
  some (idToJson id)

/-- The encoder with every unwrap of the source made explicit: each
serde_json::to_value result is threaded through Option, so a None here is
exactly a panic of the source's .unwrap() calls (feature.rs lines 27, 32, 37,
41, 44). -/
def featureToJsonObjectChecked {G : Type} (C : GeometryCodec G)
    (feature : FeatureBase G) : Option JsonObject := do
  let map : JsonObject := []
  let map := objInsert map "type" (.str "Feature")
  let gv ← toValueOptGeometryChecked C feature.geometry
  let map := objInsert map "geometry" gv
  let pv ←
    match feature.properties with
    | some properties => toValuePropertiesChecked properties
    | none => toValueEmptyPropertiesChecked
  let map := objInsert map "properties" pv
  let map ←
    match feature.bbox with
    | some bbox => do
      let bv ← toValueBboxChecked bbox
      pure (objInsert map "bbox" bv)
    | none => pure map
  let map ←
    match feature.id with
    | some id => do
      let iv ← toValueIdChecked id
      pure (objInsert map "id" iv)
    | none => pure map
  match feature.foreign_members with
  | some foreign_members => pure (foldIns map foreign_members)
  | none => pure map

/-- Follows the claim's words (C3): the fixed insertion sequence the encoder
is claimed to perform: type, then geometry, then properties, then bbox only
if present, then id only if present, then each foreign member in stored
order with its key exactly as stored. -/
def encodeInsertionOrder {G : Type} (C : GeometryCodec G)
    (f : FeatureBase G) : List (String × JsonValue) :=
  [("type", JsonValue.str "Feature"),
   ("geometry", toValueOptGeometry C f.geometry),
   ("properties", JsonValue.obj (match f.properties with
     | some p => p
     | none => []))]
  ++ (match f.bbox with
      | some bbox => [("bbox", toValueBbox bbox)]
      | none => [])
  ++ (match f.id with
      | some id => [("id", idToJson id)]
      | none => [])
  ++ (match f.foreign_members with
      | some fm => fm
      | none => [])

/-- The serde Deserialize hook for FeatureBase (feature.rs lines 103-114).
The generic deserializer run `JsonObject::deserialize(deserializer)` is
passed as the already-computed `deserialized` argument and the framework's
`D::Error::custom` constructor as `custom`; the hook then runs the typed
decoder and converts its typed error through its string rendering. -/
def deserializeFeatureBase {G E : Type} (C : GeometryCodec G)
    (custom : String → E) (deserialized : Except E JsonObject) :
    Except E (FeatureBase G) :=
  match deserialized with
  | .error e => .error e
  | .ok val =>
    match FeatureBase.from_json_object C val with
    | .ok f => .ok f
    | .error e => .error (custom (Error.render e))

/-- A tiny concrete geometry type standing in for the external Geometry
module in concrete witnesses and counterexamples. -/
inductive TestGeom where
  | point (x y : Int)

/-- A concrete codec for TestGeom, round-tripping like the real Geometry
codec. -/
def testCodec : GeometryCodec TestGeom :=
  ⟨fun g =>
    match g with
    | .point x y =>
      .obj [("coordinates", .arr [.num (.int x), .num (.int y)]),
            ("type", .str "Point")],
   fun v =>
    match v with
    | .obj [("coordinates", .arr [.num (.int x), .num (.int y)]),
            ("type", .str "Point")] => some (.point x y)
    | _ => none⟩



/-- A concrete Feature with an absent (null) properties field, exhibiting the
encode/decode asymmetry for properties. -/
def featureNullProps : FeatureBase TestGeom :=
  ⟨none, some (.point 1 2), none, none, none⟩

/-- A concrete valid Feature with present (empty) properties, a bbox, a
numeric id and one foreign member. -/
def featureFull : FeatureBase TestGeom :=
  ⟨some [.int 0, .int 1, .int 2, .int 3], some (.point 1 2),
   some (.Number (.int 0)), some [],
   some [("other_member", .str "some_value")]⟩



theorem objGet_nil (k : String) : objGet [] k = none := rfl

theorem objRemove_nil (k : String) : objRemove [] k = [] := rfl

theorem objGet_cons_self (rest : JsonObject) (k : String) (v : JsonValue) :
    objGet ((k, v) :: rest) k = some v := by
  simp [objGet]

theorem objGet_cons_ne (rest : JsonObject) (k0 : String) (v0 : JsonValue)
    (j : String) (h : k0 ≠ j) : objGet ((k0, v0) :: rest) j = objGet rest j := by
  simp [objGet, h]

theorem objRemove_cons_self (rest : JsonObject) (k : String) (v : JsonValue) :
    objRemove ((k, v) :: rest) k = objRemove rest k := by
  simp [objRemove]

theorem objRemove_cons_self' (rest : JsonObject) (k0 : String)
    (v0 : JsonValue) (k : String) (h : k0 = k) :
    objRemove ((k0, v0) :: rest) k = objRemove rest k := by
  subst h
  simp [objRemove]

theorem objRemove_cons_ne (rest : JsonObject) (k0 : String) (v0 : JsonValue)
    (j : String) (h : k0 ≠ j) :
    objRemove ((k0, v0) :: rest) j = (k0, v0) :: objRemove rest j := by
  simp [objRemove, h]

theorem objInsert_cons_self (rest : JsonObject) (k : String)
    (v v0 : JsonValue) : objInsert ((k, v0) :: rest) k v = (k, v) :: rest := by
  simp [objInsert]

theorem objInsert_cons_lt (rest : JsonObject) (k0 : String) (v0 : JsonValue)
    (k : String) (v : JsonValue) (h : k < k0) :
    objInsert ((k0, v0) :: rest) k v = (k, v) :: (k0, v0) :: rest := by
  simp [objInsert, ne_of_lt h, h]

theorem objInsert_cons_gt (rest : JsonObject) (k0 : String) (v0 : JsonValue)
    (k : String) (v : JsonValue) (h : k0 < k) :
    objInsert ((k0, v0) :: rest) k v = (k0, v0) :: objInsert rest k v := by
  simp [objInsert, (ne_of_lt h).symm, lt_asymm h]

theorem objGet_insert_self (o : JsonObject) (k : String) (v : JsonValue) :
    objGet (objInsert o k v) k = some v := by
  induction o with
  | nil => simp [objInsert, objGet]
  | cons kv rest ih =>
    obtain ⟨k0, v0⟩ := kv
    rcases lt_trichotomy k k0 with h | h | h
    · rw [objInsert_cons_lt rest k0 v0 k v h, objGet_cons_self]
    · subst h
      rw [objInsert_cons_self, objGet_cons_self]
    · rw [objInsert_cons_gt rest k0 v0 k v h,
        objGet_cons_ne _ _ _ _ (ne_of_lt h), ih]

theorem objGet_insert_ne (o : JsonObject) (k : String) (v : JsonValue)
    (j : String) (h : j ≠ k) : objGet (objInsert o k v) j = objGet o j := by
  induction o with
  | nil => simp [objInsert, objGet, Ne.symm h]
  | cons kv rest ih =>
    obtain ⟨k0, v0⟩ := kv
    rcases lt_trichotomy k k0 with h1 | h1 | h1
    · rw [objInsert_cons_lt rest k0 v0 k v h1,
        objGet_cons_ne _ _ _ _ (Ne.symm h)]
    · subst h1
      rw [objInsert_cons_self, objGet_cons_ne _ _ _ _ (Ne.symm h),
        objGet_cons_ne _ _ _ _ (Ne.symm h)]
    · by_cases h2 : k0 = j
      · subst h2
        rw [objInsert_cons_gt rest k0 v0 k v h1, objGet_cons_self,
          objGet_cons_self]
      · rw [objInsert_cons_gt rest k0 v0 k v h1, objGet_cons_ne _ _ _ _ h2,
          objGet_cons_ne _ _ _ _ h2, ih]

theorem objRemove_insert_self (o : JsonObject) (k : String) (v : JsonValue) :
    objRemove (objInsert o k v) k = objRemove o k := by
  induction o with
  | nil => simp [objInsert, objRemove]
  | cons kv rest ih =>
    obtain ⟨k0, v0⟩ := kv
    rcases lt_trichotomy k k0 with h | h | h
    · rw [objInsert_cons_lt rest k0 v0 k v h, objRemove_cons_self,
        objRemove_cons_ne _ _ _ _ (Ne.symm (ne_of_lt h))]
    · subst h
      rw [objInsert_cons_self, objRemove_cons_self, objRemove_cons_self]
    · rw [objInsert_cons_gt rest k0 v0 k v h,
        objRemove_cons_ne _ _ _ _ (ne_of_lt h),
        objRemove_cons_ne _ _ _ _ (ne_of_lt h), ih]

theorem mem_objInsert (o : JsonObject) (k : String) (v : JsonValue)
    (a : String × JsonValue) (ha : a ∈ objInsert o k v) :
    a = (k, v) ∨ a ∈ o := by
  induction o with
  | nil => simpa [objInsert] using ha
  | cons kv rest ih =>
    obtain ⟨k0, v0⟩ := kv
    rcases lt_trichotomy k k0 with h | h | h
    · rw [objInsert_cons_lt rest k0 v0 k v h] at ha
      simpa using ha
    · subst h
      rw [objInsert_cons_self] at ha
      rcases List.mem_cons.mp ha with h' | h'
      · exact Or.inl h'
      · exact Or.inr (List.mem_cons_of_mem _ h')
    · rw [objInsert_cons_gt rest k0 v0 k v h] at ha
      rcases List.mem_cons.mp ha with h' | h'
      · exact Or.inr (h' ▸ List.mem_cons_self _ _)
      · rcases ih h' with h'' | h''
        · exact Or.inl h''
        · exact Or.inr (List.mem_cons_of_mem _ h'')

theorem objSorted_nil : ObjSorted [] :=
  List.Pairwise.nil

theorem objSorted_insert (o : JsonObject) (k : String) (v : JsonValue)
    (hs : ObjSorted o) : ObjSorted (objInsert o k v) := by
  induction o with
  | nil => simp [objInsert]
  | cons kv rest ih =>
    obtain ⟨k0, v0⟩ := kv
    obtain ⟨hhead, htail⟩ := List.pairwise_cons.mp hs
    rcases lt_trichotomy k k0 with h | h | h
    · rw [objInsert_cons_lt rest k0 v0 k v h]
      refine List.pairwise_cons.mpr ⟨?_, List.pairwise_cons.mpr ⟨hhead, htail⟩⟩
      intro a ha
      rcases List.mem_cons.mp ha with h' | h'
      · subst h'; exact h
      · exact lt_trans h (hhead a h')
    · subst h
      rw [objInsert_cons_self]
      exact List.pairwise_cons.mpr ⟨hhead, htail⟩
    · rw [objInsert_cons_gt rest k0 v0 k v h]
      refine List.pairwise_cons.mpr ⟨?_, ih htail⟩
      intro a ha
      rcases mem_objInsert rest k v a ha with h' | h'
      · subst h'; exact h
      · exact hhead a h'

theorem objInsert_eq_cons (o : JsonObject) (k : String) (v : JsonValue)
    (h : ∀ a ∈ o, k < a.1) : objInsert o k v = (k, v) :: o := by
  cases o with
  | nil => rfl
  | cons kv rest =>
    obtain ⟨k0, v0⟩ := kv
    exact objInsert_cons_lt rest k0 v0 k v (h (k0, v0) (by simp))

theorem objInsert_eq_append (o : JsonObject) (k : String) (v : JsonValue)
    (h : ∀ a ∈ o, a.1 < k) : objInsert o k v = o ++ [(k, v)] := by
  induction o with
  | nil => rfl
  | cons kv rest ih =>
    obtain ⟨k0, v0⟩ := kv
    have hk : k0 < k := h (k0, v0) (by simp)
    rw [objInsert_cons_gt rest k0 v0 k v hk,
      ih (fun a ha => h a (List.mem_cons_of_mem _ ha))]
    simp

theorem objRemove_eq_self (o : JsonObject) (k : String)
    (h : ∀ a ∈ o, a.1 ≠ k) : objRemove o k = o := by
  induction o with
  | nil => rfl
  | cons kv rest ih =>
    obtain ⟨k0, v0⟩ := kv
    rw [objRemove_cons_ne rest k0 v0 k (h (k0, v0) (by simp)),
      ih (fun a ha => h a (List.mem_cons_of_mem _ ha))]

theorem objRemove_insert_ne (o : JsonObject) (k : String) (v : JsonValue)
    (j : String) (hs : ObjSorted o) (h : j ≠ k) :
    objRemove (objInsert o k v) j = objInsert (objRemove o j) k v := by
  induction o with
  | nil => simp [objInsert, objRemove, Ne.symm h]
  | cons kv rest ih =>
    obtain ⟨k0, v0⟩ := kv
    obtain ⟨hhead, htail⟩ := List.pairwise_cons.mp hs
    rcases lt_trichotomy k k0 with h1 | h1 | h1
    · by_cases h3 : k0 = j
      · subst h3
        have hr : objRemove rest k0 = rest :=
          objRemove_eq_self rest k0
            (fun a ha => Ne.symm (ne_of_lt (hhead a ha)))
        have hi : objInsert rest k v = (k, v) :: rest :=
          objInsert_eq_cons rest k v
            (fun a ha => lt_trans h1 (hhead a ha))
        rw [objInsert_cons_lt rest k0 v0 k v h1,
          objRemove_cons_ne _ _ _ _ (Ne.symm h), objRemove_cons_self, hr, hi]
      · rw [objInsert_cons_lt rest k0 v0 k v h1,
          objRemove_cons_ne _ _ _ _ (Ne.symm h),
          objRemove_cons_ne _ _ _ _ h3,
          objInsert_cons_lt _ k0 v0 k v h1]
    · subst h1
      rw [objInsert_cons_self,
        objRemove_cons_ne _ _ _ _ (Ne.symm h),
        objRemove_cons_ne _ _ _ _ (Ne.symm h),
        objInsert_cons_self]
    · by_cases h3 : k0 = j
      · subst h3
        rw [objInsert_cons_gt rest k0 v0 k v h1, objRemove_cons_self,
          objRemove_cons_self, ih htail]
      · rw [objInsert_cons_gt rest k0 v0 k v h1,
          objRemove_cons_ne _ _ _ _ h3,
          objRemove_cons_ne _ _ _ _ h3, ih htail,
          objInsert_cons_gt _ k0 v0 k v h1]

theorem objGet_remove_ne (o : JsonObject) (k : String) (j : String)
    (h : j ≠ k) : objGet (objRemove o k) j = objGet o j := by
  induction o with
  | nil => rfl
  | cons kv rest ih =>
    obtain ⟨k0, v0⟩ := kv
    by_cases h1 : k0 = k
    · subst h1
      rw [objRemove_cons_self, objGet_cons_ne _ _ _ _ (Ne.symm h), ih]
    · by_cases h2 : k0 = j
      · subst h2
        rw [objRemove_cons_ne _ _ _ _ h1, objGet_cons_self, objGet_cons_self]
      · rw [objRemove_cons_ne _ _ _ _ h1, objGet_cons_ne _ _ _ _ h2,
          objGet_cons_ne _ _ _ _ h2, ih]

theorem mem_objRemove (o : JsonObject) (k : String)
    (a : String × JsonValue) (ha : a ∈ objRemove o k) : a ∈ o := by
  induction o with
  | nil => simp [objRemove] at ha
  | cons kv rest ih =>
    obtain ⟨k0, v0⟩ := kv
    by_cases h1 : k0 = k
    · rw [objRemove_cons_self' rest k0 v0 k h1] at ha
      exact List.mem_cons_of_mem _ (ih ha)
    · rw [objRemove_cons_ne _ _ _ _ h1] at ha
      rcases List.mem_cons.mp ha with h' | h'
      · exact h' ▸ List.mem_cons_self _ _
      · exact List.mem_cons_of_mem _ (ih h')

theorem objSorted_remove (o : JsonObject) (k : String) (hs : ObjSorted o) :
    ObjSorted (objRemove o k) := by
  induction o with
  | nil => exact objSorted_nil
  | cons kv rest ih =>
    obtain ⟨k0, v0⟩ := kv
    obtain ⟨hhead, htail⟩ := List.pairwise_cons.mp hs
    by_cases h1 : k0 = k
    · rw [objRemove_cons_self' rest k0 v0 k h1]
      exact ih htail
    · rw [objRemove_cons_ne _ _ _ _ h1]
      refine List.pairwise_cons.mpr ⟨?_, ih htail⟩
      intro a ha
      exact hhead a (mem_objRemove rest k a ha)

theorem objGet_foldIns (o : JsonObject) (l : List (String × JsonValue))
    (k : String) (h : ∀ a ∈ l, a.1 ≠ k) :
    objGet (foldIns o l) k = objGet o k := by
  induction l generalizing o with
  | nil => rfl
  | cons kv rest ih =>
    rw [foldIns, List.foldl_cons, ← foldIns]
    rw [ih (objInsert o kv.1 kv.2)
      (fun a ha => h a (List.mem_cons_of_mem _ ha))]
    exact objGet_insert_ne o kv.1 kv.2 k
      (Ne.symm (h kv (List.mem_cons_self _ _)))

theorem objRemove_foldIns (o : JsonObject) (l : List (String × JsonValue))
    (k : String) (hs : ObjSorted o) (h : ∀ a ∈ l, a.1 ≠ k) :
    objRemove (foldIns o l) k = foldIns (objRemove o k) l := by
  induction l generalizing o with
  | nil => rfl
  | cons kv rest ih =>
    rw [foldIns, List.foldl_cons, ← foldIns]
    rw [ih (objInsert o kv.1 kv.2) (objSorted_insert o kv.1 kv.2 hs)
      (fun a ha => h a (List.mem_cons_of_mem _ ha))]
    rw [objRemove_insert_ne o kv.1 kv.2 k hs
      (Ne.symm (h kv (List.mem_cons_self _ _)))]
    rfl

theorem objSorted_foldIns (o : JsonObject) (l : List (String × JsonValue))
    (hs : ObjSorted o) : ObjSorted (foldIns o l) := by
  induction l generalizing o with
  | nil => exact hs
  | cons kv rest ih =>
    rw [foldIns, List.foldl_cons, ← foldIns]
    exact ih (objInsert o kv.1 kv.2) (objSorted_insert o kv.1 kv.2 hs)

theorem foldIns_eq_append (o : JsonObject) (l : List (String × JsonValue))
    (h : ObjSorted (o ++ l)) : foldIns o l = o ++ l := by
  induction l generalizing o with
  | nil => simp [foldIns]
  | cons kv rest ih =>
    obtain ⟨ho, hl0, hrel⟩ := List.pairwise_append.mp h
    obtain ⟨hl1, hl2⟩ := List.pairwise_cons.mp hl0
    rw [foldIns, List.foldl_cons, ← foldIns]
    rw [objInsert_eq_append o kv.1 kv.2
      (fun a ha => hrel a ha kv (List.mem_cons_self _ _))]
    rw [ih (o ++ [kv])]
    · simp
    · refine List.pairwise_append.mpr ⟨?_, hl2, ?_⟩
      · refine List.pairwise_append.mpr
          ⟨ho, List.pairwise_singleton _ _, ?_⟩
        intro a ha b hb
        rw [List.mem_singleton] at hb
        exact hb.symm ▸ hrel a ha kv (List.mem_cons_self _ _)
      · intro a ha b hb
        rcases List.mem_append.mp ha with h' | h'
        · exact hrel a h' b (List.mem_cons_of_mem _ hb)
        · rw [List.mem_singleton] at h'
          exact h'.symm ▸ hl1 b hb

theorem objGet_foldIns_mem (o : JsonObject) (l : List (String × JsonValue))
    (k : String) (v : JsonValue) (hnd : (l.map Prod.fst).Nodup)
    (hget : objGet l k = some v) : objGet (foldIns o l) k = some v := by
  induction l generalizing o with
  | nil => simp [objGet] at hget
  | cons kv rest ih =>
    obtain ⟨k0, v0⟩ := kv
    rw [List.map_cons, List.nodup_cons] at hnd
    rw [foldIns, List.foldl_cons, ← foldIns]
    by_cases h1 : k0 = k
    · subst h1
      rw [objGet_cons_self] at hget
      rw [objGet_foldIns (objInsert o k0 v0) rest k0
        (fun a ha h => hnd.1 (List.mem_map.mpr ⟨a, ha, h⟩))]
      rw [objGet_insert_self]
      exact hget
    · rw [objGet_cons_ne _ _ _ _ h1] at hget
      exact ih (objInsert o k0 v0) hnd.2 hget

theorem parseNums_map (l : List JNumber) :
    parseNums (l.map JsonValue.num) = some l := by
  induction l with
  | nil => rfl
  | cons n rest ih => simp [parseNums, ih]

theorem isNull_eq_false (v : JsonValue) (h : v ≠ .null) :
    v.isNull = false := by
  cases v <;> simp [JsonValue.isNull] at h ⊢

theorem expect_type_of_get (obj : JsonObject) (s : String)
    (h : objGet obj "type" = some (.str s)) :
    expect_type obj = .ok (s, objRemove obj "type") := by
  simp [expect_type, h]

theorem get_geometry_of_encoded {G : Type} (C : GeometryCodec G)
    (hinv : ∀ g, C.ofJson (C.toJson g) = some g)
    (hnn : ∀ g, C.toJson g ≠ JsonValue.null)
    (og : Option G) (obj : JsonObject)
    (h : objGet obj "geometry" = some (toValueOptGeometry C og)) :
    get_geometry C obj = .ok (og, objRemove obj "geometry") := by
  cases og with
  | none => simp [get_geometry, h, toValueOptGeometry, JsonValue.isNull]
  | some g =>
    simp only [toValueOptGeometry] at h
    simp [get_geometry, h, isNull_eq_false _ (hnn g), hinv g]

theorem get_properties_of_get (obj : JsonObject) (p : JsonObject)
    (h : objGet obj "properties" = some (.obj p)) :
    get_properties obj = .ok (some p, objRemove obj "properties") := by
  simp [get_properties, h]

theorem get_id_of_encoded (obj : JsonObject) (i : Id)
    (h : objGet obj "id" = some (idToJson i)) :
    get_id obj = .ok (some i, objRemove obj "id") := by
  cases i with
  | String s =>
    simp only [idToJson] at h
    simp [get_id, h]
  | Number n =>
    simp only [idToJson] at h
    simp [get_id, h]

theorem get_id_of_absent (obj : JsonObject)
    (h : objGet obj "id" = none) : get_id obj = .ok (none, obj) := by
  simp [get_id, h]

theorem get_bbox_of_encoded (obj : JsonObject) (bb : List JNumber)
    (h : objGet obj "bbox" = some (toValueBbox bb)) :
    get_bbox obj = .ok (some bb, objRemove obj "bbox") := by
  simp only [toValueBbox] at h
  simp [get_bbox, h, parseNums_map]

theorem get_bbox_of_absent (obj : JsonObject)
    (h : objGet obj "bbox" = none) : get_bbox obj = .ok (none, obj) := by
  simp [get_bbox, h]

theorem decode_encode_case1 {G : Type} (C : GeometryCodec G)
    (hinv : ∀ g, C.ofJson (C.toJson g) = some g)
    (hnn : ∀ g, C.toJson g ≠ JsonValue.null)
    (og : Option G) (p : JsonObject) (l : JsonObject)
    (hld : ∀ a ∈ l, a.1 ∉ reservedKeys) (hsl : ObjSorted l) :
    FeatureBase.try_from_object C
        (foldIns (featureToJsonObject C ⟨none, og, none, some p, none⟩) l)
      = .ok ⟨none, og, none, some p,
          match l with | [] => none | _ => some l⟩ := by
  have hK : ∀ a ∈ l, a.1 ≠ "type" ∧ a.1 ≠ "geometry" ∧ a.1 ≠ "properties" ∧
      a.1 ≠ "bbox" ∧ a.1 ≠ "id" := by
    intro a ha
    have h := hld a ha
    simp [reservedKeys] at h
    exact h
  have hT : ∀ a ∈ l, a.1 ≠ "type" := fun a ha => (hK a ha).1
  have hG : ∀ a ∈ l, a.1 ≠ "geometry" := fun a ha => (hK a ha).2.1
  have hP : ∀ a ∈ l, a.1 ≠ "properties" := fun a ha => (hK a ha).2.2.1
  have hB : ∀ a ∈ l, a.1 ≠ "bbox" := fun a ha => (hK a ha).2.2.2.1
  have hI : ∀ a ∈ l, a.1 ≠ "id" := fun a ha => (hK a ha).2.2.2.2
  have hbase : featureToJsonObject C ⟨none, og, none, some p, none⟩ =
      [("geometry", toValueOptGeometry C og), ("properties", JsonValue.obj p), ("type", JsonValue.str "Feature")] := by
    simp +decide [featureToJsonObject, objInsert]
  rw [hbase]
  have hsE : ObjSorted [("geometry", toValueOptGeometry C og), ("properties", JsonValue.obj p), ("type", JsonValue.str "Feature")] := by
    simp +decide [List.pairwise_cons]
  have g1 : objGet (foldIns [("geometry", toValueOptGeometry C og), ("properties", JsonValue.obj p), ("type", JsonValue.str "Feature")] l) "type" = some (.str "Feature") := by
    rw [objGet_foldIns _ l "type" hT]
    simp +decide [objGet]
  have s1 := expect_type_of_get _ _ g1
  have r1 : objRemove (foldIns [("geometry", toValueOptGeometry C og), ("properties", JsonValue.obj p), ("type", JsonValue.str "Feature")] l) "type" = foldIns [("geometry", toValueOptGeometry C og), ("properties", JsonValue.obj p)] l := by
    rw [objRemove_foldIns _ l "type" hsE hT]
    simp +decide [objRemove]
  have hsE1 : ObjSorted [("geometry", toValueOptGeometry C og), ("properties", JsonValue.obj p)] := by
    simp +decide [List.pairwise_cons]
  have g2 : objGet (foldIns [("geometry", toValueOptGeometry C og), ("properties", JsonValue.obj p)] l) "geometry"
      = some (toValueOptGeometry C og) := by
    rw [objGet_foldIns _ l "geometry" hG]
    simp +decide [objGet]
  have s2 := get_geometry_of_encoded C hinv hnn og _ g2
  have r2 : objRemove (foldIns [("geometry", toValueOptGeometry C og), ("properties", JsonValue.obj p)] l) "geometry"
      = foldIns [("properties", JsonValue.obj p)] l := by
    rw [objRemove_foldIns _ l "geometry" hsE1 hG]
    simp +decide [objRemove]
  have hsE2 : ObjSorted [("properties", JsonValue.obj p)] := by
    simp +decide [List.pairwise_cons]
  have g3 : objGet (foldIns [("properties", JsonValue.obj p)] l) "properties"
      = some (.obj p) := by
    rw [objGet_foldIns _ l "properties" hP]
    simp +decide [objGet]
  have s3 := get_properties_of_get _ p g3
  have r3 : objRemove (foldIns [("properties", JsonValue.obj p)] l) "properties"
      = foldIns ([] : JsonObject) l := by
    rw [objRemove_foldIns _ l "properties" hsE2 hP]
    simp +decide [objRemove]
  have g4 : objGet (foldIns ([] : JsonObject) l) "id" = none := by
    rw [objGet_foldIns _ l "id" hI]
    simp +decide [objGet]
  have s4 := get_id_of_absent _ g4
  have g5 : objGet (foldIns ([] : JsonObject) l) "bbox" = none := by
    rw [objGet_foldIns _ l "bbox" hB]
    simp +decide [objGet]
  have s5 := get_bbox_of_absent _ g5
  have rl : foldIns ([] : JsonObject) l = l := by
    rw [foldIns_eq_append [] l (by simpa using hsl)]
    simp
  rw [rl] at r3 s4 s5
  simp only [FeatureBase.try_from_object, s1, r1, s2, r2, s3, r3, s4, s5]
  cases l with
  | nil => simp [get_foreign_members]
  | cons a r => simp [get_foreign_members]

theorem decode_encode_case2 {G : Type} (C : GeometryCodec G)
    (hinv : ∀ g, C.ofJson (C.toJson g) = some g)
    (hnn : ∀ g, C.toJson g ≠ JsonValue.null)
    (og : Option G) (p : JsonObject) (bb : List JNumber) (l : JsonObject)
    (hld : ∀ a ∈ l, a.1 ∉ reservedKeys) (hsl : ObjSorted l) :
    FeatureBase.try_from_object C
        (foldIns (featureToJsonObject C ⟨some bb, og, none, some p, none⟩) l)
      = .ok ⟨some bb, og, none, some p,
          match l with | [] => none | _ => some l⟩ := by
  have hK : ∀ a ∈ l, a.1 ≠ "type" ∧ a.1 ≠ "geometry" ∧ a.1 ≠ "properties" ∧
      a.1 ≠ "bbox" ∧ a.1 ≠ "id" := by
    intro a ha
    have h := hld a ha
    simp [reservedKeys] at h
    exact h
  have hT : ∀ a ∈ l, a.1 ≠ "type" := fun a ha => (hK a ha).1
  have hG : ∀ a ∈ l, a.1 ≠ "geometry" := fun a ha => (hK a ha).2.1
  have hP : ∀ a ∈ l, a.1 ≠ "properties" := fun a ha => (hK a ha).2.2.1
  have hB : ∀ a ∈ l, a.1 ≠ "bbox" := fun a ha => (hK a ha).2.2.2.1
  have hI : ∀ a ∈ l, a.1 ≠ "id" := fun a ha => (hK a ha).2.2.2.2
  have hbase : featureToJsonObject C ⟨some bb, og, none, some p, none⟩ =
      [("bbox", toValueBbox bb), ("geometry", toValueOptGeometry C og), ("properties", JsonValue.obj p), ("type", JsonValue.str "Feature")] := by
    simp +decide [featureToJsonObject, objInsert]
  rw [hbase]
  have hsE : ObjSorted [("bbox", toValueBbox bb), ("geometry", toValueOptGeometry C og), ("properties", JsonValue.obj p), ("type", JsonValue.str "Feature")] := by
    simp +decide [List.pairwise_cons]
  have g1 : objGet (foldIns [("bbox", toValueBbox bb), ("geometry", toValueOptGeometry C og), ("properties", JsonValue.obj p), ("type", JsonValue.str "Feature")] l) "type" = some (.str "Feature") := by
    rw [objGet_foldIns _ l "type" hT]
    simp +decide [objGet]
  have s1 := expect_type_of_get _ _ g1
  have r1 : objRemove (foldIns [("bbox", toValueBbox bb), ("geometry", toValueOptGeometry C og), ("properties", JsonValue.obj p), ("type", JsonValue.str "Feature")] l) "type" = foldIns [("bbox", toValueBbox bb), ("geometry", toValueOptGeometry C og), ("properties", JsonValue.obj p)] l := by
    rw [objRemove_foldIns _ l "type" hsE hT]
    simp +decide [objRemove]
  have hsE1 : ObjSorted [("bbox", toValueBbox bb), ("geometry", toValueOptGeometry C og), ("properties", JsonValue.obj p)] := by
    simp +decide [List.pairwise_cons]
  have g2 : objGet (foldIns [("bbox", toValueBbox bb), ("geometry", toValueOptGeometry C og), ("properties", JsonValue.obj p)] l) "geometry"
      = some (toValueOptGeometry C og) := by
    rw [objGet_foldIns _ l "geometry" hG]
    simp +decide [objGet]
  have s2 := get_geometry_of_encoded C hinv hnn og _ g2
  have r2 : objRemove (foldIns [("bbox", toValueBbox bb), ("geometry", toValueOptGeometry C og), ("properties", JsonValue.obj p)] l) "geometry"
      = foldIns [("bbox", toValueBbox bb), ("properties", JsonValue.obj p)] l := by
    rw [objRemove_foldIns _ l "geometry" hsE1 hG]
    simp +decide [objRemove]
  have hsE2 : ObjSorted [("bbox", toValueBbox bb), ("properties", JsonValue.obj p)] := by
    simp +decide [List.pairwise_cons]
  have g3 : objGet (foldIns [("bbox", toValueBbox bb), ("properties", JsonValue.obj p)] l) "properties"
      = some (.obj p) := by
    rw [objGet_foldIns _ l "properties" hP]
    simp +decide [objGet]
  have s3 := get_properties_of_get _ p g3
  have r3 : objRemove (foldIns [("bbox", toValueBbox bb), ("properties", JsonValue.obj p)] l) "properties"
      = foldIns [("bbox", toValueBbox bb)] l := by
    rw [objRemove_foldIns _ l "properties" hsE2 hP]
    simp +decide [objRemove]
  have g4 : objGet (foldIns [("bbox", toValueBbox bb)] l) "id" = none := by
    rw [objGet_foldIns _ l "id" hI]
    simp +decide [objGet]
  have s4 := get_id_of_absent _ g4
  have hsE4 : ObjSorted [("bbox", toValueBbox bb)] := by
    simp +decide [List.pairwise_cons]
  have g5 : objGet (foldIns [("bbox", toValueBbox bb)] l) "bbox" = some (toValueBbox bb) := by
    rw [objGet_foldIns _ l "bbox" hB]
    simp +decide [objGet]
  have s5 := get_bbox_of_encoded _ bb g5
  have r5 : objRemove (foldIns [("bbox", toValueBbox bb)] l) "bbox" = foldIns ([] : JsonObject) l := by
    rw [objRemove_foldIns _ l "bbox" hsE4 hB]
    simp +decide [objRemove]
  have rl : foldIns ([] : JsonObject) l = l := by
    rw [foldIns_eq_append [] l (by simpa using hsl)]
    simp
  rw [rl] at r5
  simp only [FeatureBase.try_from_object, s1, r1, s2, r2, s3, r3, s4, s5, r5]
  cases l with
  | nil => simp [get_foreign_members]
  | cons a r => simp [get_foreign_members]

theorem decode_encode_case3 {G : Type} (C : GeometryCodec G)
    (hinv : ∀ g, C.ofJson (C.toJson g) = some g)
    (hnn : ∀ g, C.toJson g ≠ JsonValue.null)
    (og : Option G) (p : JsonObject) (i : Id) (l : JsonObject)
    (hld : ∀ a ∈ l, a.1 ∉ reservedKeys) (hsl : ObjSorted l) :
    FeatureBase.try_from_object C
        (foldIns (featureToJsonObject C ⟨none, og, some i, some p, none⟩) l)
      = .ok ⟨none, og, some i, some p,
          match l with | [] => none | _ => some l⟩ := by
  have hK : ∀ a ∈ l, a.1 ≠ "type" ∧ a.1 ≠ "geometry" ∧ a.1 ≠ "properties" ∧
      a.1 ≠ "bbox" ∧ a.1 ≠ "id" := by
    intro a ha
    have h := hld a ha
    simp [reservedKeys] at h
    exact h
  have hT : ∀ a ∈ l, a.1 ≠ "type" := fun a ha => (hK a ha).1
  have hG : ∀ a ∈ l, a.1 ≠ "geometry" := fun a ha => (hK a ha).2.1
  have hP : ∀ a ∈ l, a.1 ≠ "properties" := fun a ha => (hK a ha).2.2.1
  have hB : ∀ a ∈ l, a.1 ≠ "bbox" := fun a ha => (hK a ha).2.2.2.1
  have hI : ∀ a ∈ l, a.1 ≠ "id" := fun a ha => (hK a ha).2.2.2.2
  have hbase : featureToJsonObject C ⟨none, og, some i, some p, none⟩ =
      [("geometry", toValueOptGeometry C og), ("id", idToJson i), ("properties", JsonValue.obj p), ("type", JsonValue.str "Feature")] := by
    simp +decide [featureToJsonObject, objInsert]
  rw [hbase]
  have hsE : ObjSorted [("geometry", toValueOptGeometry C og), ("id", idToJson i), ("properties", JsonValue.obj p), ("type", JsonValue.str "Feature")] := by
    simp +decide [List.pairwise_cons]
  have g1 : objGet (foldIns [("geometry", toValueOptGeometry C og), ("id", idToJson i), ("properties", JsonValue.obj p), ("type", JsonValue.str "Feature")] l) "type" = some (.str "Feature") := by
    rw [objGet_foldIns _ l "type" hT]
    simp +decide [objGet]
  have s1 := expect_type_of_get _ _ g1
  have r1 : objRemove (foldIns [("geometry", toValueOptGeometry C og), ("id", idToJson i), ("properties", JsonValue.obj p), ("type", JsonValue.str "Feature")] l) "type" = foldIns [("geometry", toValueOptGeometry C og), ("id", idToJson i), ("properties", JsonValue.obj p)] l := by
    rw [objRemove_foldIns _ l "type" hsE hT]
    simp +decide [objRemove]
  have hsE1 : ObjSorted [("geometry", toValueOptGeometry C og), ("id", idToJson i), ("properties", JsonValue.obj p)] := by
    simp +decide [List.pairwise_cons]
  have g2 : objGet (foldIns [("geometry", toValueOptGeometry C og), ("id", idToJson i), ("properties", JsonValue.obj p)] l) "geometry"
      = some (toValueOptGeometry C og) := by
    rw [objGet_foldIns _ l "geometry" hG]
    simp +decide [objGet]
  have s2 := get_geometry_of_encoded C hinv hnn og _ g2
  have r2 : objRemove (foldIns [("geometry", toValueOptGeometry C og), ("id", idToJson i), ("properties", JsonValue.obj p)] l) "geometry"
      = foldIns [("id", idToJson i), ("properties", JsonValue.obj p)] l := by
    rw [objRemove_foldIns _ l "geometry" hsE1 hG]
    simp +decide [objRemove]
  have hsE2 : ObjSorted [("id", idToJson i), ("properties", JsonValue.obj p)] := by
    simp +decide [List.pairwise_cons]
  have g3 : objGet (foldIns [("id", idToJson i), ("properties", JsonValue.obj p)] l) "properties"
      = some (.obj p) := by
    rw [objGet_foldIns _ l "properties" hP]
    simp +decide [objGet]
  have s3 := get_properties_of_get _ p g3
  have r3 : objRemove (foldIns [("id", idToJson i), ("properties", JsonValue.obj p)] l) "properties"
      = foldIns [("id", idToJson i)] l := by
    rw [objRemove_foldIns _ l "properties" hsE2 hP]
    simp +decide [objRemove]
  have hsE3 : ObjSorted [("id", idToJson i)] := by
    simp +decide [List.pairwise_cons]
  have g4 : objGet (foldIns [("id", idToJson i)] l) "id" = some (idToJson i) := by
    rw [objGet_foldIns _ l "id" hI]
    simp +decide [objGet]
  have s4 := get_id_of_encoded _ i g4
  have r4 : objRemove (foldIns [("id", idToJson i)] l) "id" = foldIns ([] : JsonObject) l := by
    rw [objRemove_foldIns _ l "id" hsE3 hI]
    simp +decide [objRemove]
  have g5 : objGet (foldIns ([] : JsonObject) l) "bbox" = none := by
    rw [objGet_foldIns _ l "bbox" hB]
    simp +decide [objGet]
  have s5 := get_bbox_of_absent _ g5
  have rl : foldIns ([] : JsonObject) l = l := by
    rw [foldIns_eq_append [] l (by simpa using hsl)]
    simp
  rw [rl] at r4 s5
  simp only [FeatureBase.try_from_object, s1, r1, s2, r2, s3, r3, s4, r4, s5]
  cases l with
  | nil => simp [get_foreign_members]
  | cons a r => simp [get_foreign_members]

theorem decode_encode_case4 {G : Type} (C : GeometryCodec G)
    (hinv : ∀ g, C.ofJson (C.toJson g) = some g)
    (hnn : ∀ g, C.toJson g ≠ JsonValue.null)
    (og : Option G) (p : JsonObject) (bb : List JNumber) (i : Id) (l : JsonObject)
    (hld : ∀ a ∈ l, a.1 ∉ reservedKeys) (hsl : ObjSorted l) :
    FeatureBase.try_from_object C
        (foldIns (featureToJsonObject C ⟨some bb, og, some i, some p, none⟩) l)
      = .ok ⟨some bb, og, some i, some p,
          match l with | [] => none | _ => some l⟩ := by
  have hK : ∀ a ∈ l, a.1 ≠ "type" ∧ a.1 ≠ "geometry" ∧ a.1 ≠ "properties" ∧
      a.1 ≠ "bbox" ∧ a.1 ≠ "id" := by
    intro a ha
    have h := hld a ha
    simp [reservedKeys] at h
    exact h
  have hT : ∀ a ∈ l, a.1 ≠ "type" := fun a ha => (hK a ha).1
  have hG : ∀ a ∈ l, a.1 ≠ "geometry" := fun a ha => (hK a ha).2.1
  have hP : ∀ a ∈ l, a.1 ≠ "properties" := fun a ha => (hK a ha).2.2.1
  have hB : ∀ a ∈ l, a.1 ≠ "bbox" := fun a ha => (hK a ha).2.2.2.1
  have hI : ∀ a ∈ l, a.1 ≠ "id" := fun a ha => (hK a ha).2.2.2.2
  have hbase : featureToJsonObject C ⟨some bb, og, some i, some p, none⟩ =
      [("bbox", toValueBbox bb), ("geometry", toValueOptGeometry C og), ("id", idToJson i), ("properties", JsonValue.obj p), ("type", JsonValue.str "Feature")] := by
    simp +decide [featureToJsonObject, objInsert]
  rw [hbase]
  have hsE : ObjSorted [("bbox", toValueBbox bb), ("geometry", toValueOptGeometry C og), ("id", idToJson i), ("properties", JsonValue.obj p), ("type", JsonValue.str "Feature")] := by
    simp +decide [List.pairwise_cons]
  have g1 : objGet (foldIns [("bbox", toValueBbox bb), ("geometry", toValueOptGeometry C og), ("id", idToJson i), ("properties", JsonValue.obj p), ("type", JsonValue.str "Feature")] l) "type" = some (.str "Feature") := by
    rw [objGet_foldIns _ l "type" hT]
    simp +decide [objGet]
  have s1 := expect_type_of_get _ _ g1
  have r1 : objRemove (foldIns [("bbox", toValueBbox bb), ("geometry", toValueOptGeometry C og), ("id", idToJson i), ("properties", JsonValue.obj p), ("type", JsonValue.str "Feature")] l) "type" = foldIns [("bbox", toValueBbox bb), ("geometry", toValueOptGeometry C og), ("id", idToJson i), ("properties", JsonValue.obj p)] l := by
    rw [objRemove_foldIns _ l "type" hsE hT]
    simp +decide [objRemove]
  have hsE1 : ObjSorted [("bbox", toValueBbox bb), ("geometry", toValueOptGeometry C og), ("id", idToJson i), ("properties", JsonValue.obj p)] := by
    simp +decide [List.pairwise_cons]
  have g2 : objGet (foldIns [("bbox", toValueBbox bb), ("geometry", toValueOptGeometry C og), ("id", idToJson i), ("properties", JsonValue.obj p)] l) "geometry"
      = some (toValueOptGeometry C og) := by
    rw [objGet_foldIns _ l "geometry" hG]
    simp +decide [objGet]
  have s2 := get_geometry_of_encoded C hinv hnn og _ g2
  have r2 : objRemove (foldIns [("bbox", toValueBbox bb), ("geometry", toValueOptGeometry C og), ("id", idToJson i), ("properties", JsonValue.obj p)] l) "geometry"
      = foldIns [("bbox", toValueBbox bb), ("id", idToJson i), ("properties", JsonValue.obj p)] l := by
    rw [objRemove_foldIns _ l "geometry" hsE1 hG]
    simp +decide [objRemove]
  have hsE2 : ObjSorted [("bbox", toValueBbox bb), ("id", idToJson i), ("properties", JsonValue.obj p)] := by
    simp +decide [List.pairwise_cons]
  have g3 : objGet (foldIns [("bbox", toValueBbox bb), ("id", idToJson i), ("properties", JsonValue.obj p)] l) "properties"
      = some (.obj p) := by
    rw [objGet_foldIns _ l "properties" hP]
    simp +decide [objGet]
  have s3 := get_properties_of_get _ p g3
  have r3 : objRemove (foldIns [("bbox", toValueBbox bb), ("id", idToJson i), ("properties", JsonValue.obj p)] l) "properties"
      = foldIns [("bbox", toValueBbox bb), ("id", idToJson i)] l := by
    rw [objRemove_foldIns _ l "properties" hsE2 hP]
    simp +decide [objRemove]
  have hsE3 : ObjSorted [("bbox", toValueBbox bb), ("id", idToJson i)] := by
    simp +decide [List.pairwise_cons]
  have g4 : objGet (foldIns [("bbox", toValueBbox bb), ("id", idToJson i)] l) "id" = some (idToJson i) := by
    rw [objGet_foldIns _ l "id" hI]
    simp +decide [objGet]
  have s4 := get_id_of_encoded _ i g4
  have r4 : objRemove (foldIns [("bbox", toValueBbox bb), ("id", idToJson i)] l) "id" = foldIns [("bbox", toValueBbox bb)] l := by
    rw [objRemove_foldIns _ l "id" hsE3 hI]
    simp +decide [objRemove]
  have hsE4 : ObjSorted [("bbox", toValueBbox bb)] := by
    simp +decide [List.pairwise_cons]
  have g5 : objGet (foldIns [("bbox", toValueBbox bb)] l) "bbox" = some (toValueBbox bb) := by
    rw [objGet_foldIns _ l "bbox" hB]
    simp +decide [objGet]
  have s5 := get_bbox_of_encoded _ bb g5
  have r5 : objRemove (foldIns [("bbox", toValueBbox bb)] l) "bbox" = foldIns ([] : JsonObject) l := by
    rw [objRemove_foldIns _ l "bbox" hsE4 hB]
    simp +decide [objRemove]
  have rl : foldIns ([] : JsonObject) l = l := by
    rw [foldIns_eq_append [] l (by simpa using hsl)]
    simp
  rw [rl] at r5
  simp only [FeatureBase.try_from_object, s1, r1, s2, r2, s3, r3, s4, r4, s5, r5]
  cases l with
  | nil => simp [get_foreign_members]
  | cons a r => simp [get_foreign_members]

/-- C1 (amended): for every valid Feature whose properties field is present
(possibly an empty object), decoding the JSON object produced by encoding it
yields the Feature unchanged; in particular every foreign member's key and
value are reproduced exactly.  Amendment forced by the counterexample: when
properties is None the encoder emits an empty object, which decodes back as
Some(empty), so full equality fails for exactly those Features. -/
theorem c1_round_trip {G : Type} (C : GeometryCodec G)
    (hinv : ∀ g, C.ofJson (C.toJson g) = some g)
    (hnn : ∀ g, C.toJson g ≠ JsonValue.null)
    (f : FeatureBase G) (hv : ValidFeature f) (hp : f.properties.isSome) :
    FeatureBase.from_json_object C (featureToJsonObject C f) = .ok f := by
  obtain ⟨obb, og, oid, oprops, ofm⟩ := f
  obtain ⟨p, rfl⟩ : ∃ p, oprops = some p := by
    cases oprops with
    | none => simp at hp
    | some p => exact ⟨p, rfl⟩
  rw [FeatureBase.from_json_object]
  cases ofm with
  | none =>
    have hld : ∀ a ∈ ([] : JsonObject), a.1 ∉ reservedKeys := by simp
    rcases obb with _ | bb <;> rcases oid with _ | i
    · exact decode_encode_case1 C hinv hnn og p [] hld objSorted_nil
    · exact decode_encode_case3 C hinv hnn og p i [] hld objSorted_nil
    · exact decode_encode_case2 C hinv hnn og p bb [] hld objSorted_nil
    · exact decode_encode_case4 C hinv hnn og p bb i [] hld objSorted_nil
  | some fm =>
    obtain ⟨hne, hsfm, hkeys⟩ := hv fm rfl
    cases fm with
    | nil => exact absurd rfl hne
    | cons a r =>
      rcases obb with _ | bb <;> rcases oid with _ | i
      · exact decode_encode_case1 C hinv hnn og p (a :: r) hkeys hsfm
      · exact decode_encode_case3 C hinv hnn og p i (a :: r) hkeys hsfm
      · exact decode_encode_case2 C hinv hnn og p bb (a :: r) hkeys hsfm
      · exact decode_encode_case4 C hinv hnn og p bb i (a :: r) hkeys hsfm

/-- C1, counterexample: the claim as stated fails on a valid Feature whose
properties field is None: encoding emits "properties" as an empty object,
which decodes back as Some(empty), so decode(encode f) differs from f. -/
theorem c1_counterexample :
    (∀ g, testCodec.ofJson (testCodec.toJson g) = some g) ∧
    (∀ g, testCodec.toJson g ≠ JsonValue.null) ∧
    ValidFeature featureNullProps ∧
    FeatureBase.from_json_object testCodec
        (featureToJsonObject testCodec featureNullProps)
      ≠ .ok featureNullProps := by
  refine ⟨?_, ?_, ?_, ?_⟩
  · intro g
    cases g
    rfl
  · intro g h
    cases g
    simp [testCodec] at h
  · intro fm h
    simp [featureNullProps] at h
  · intro h
    have heq : FeatureBase.from_json_object testCodec
        (featureToJsonObject testCodec featureNullProps)
      = .ok ⟨none, some (.point 1 2), none, some [], none⟩ := by
      simp +decide [FeatureBase.from_json_object, FeatureBase.try_from_object,
        featureToJsonObject, expect_type, get_geometry, get_properties, get_id,
        get_bbox, get_foreign_members, objInsert, objGet, objRemove,
        toValueOptGeometry, testCodec, featureNullProps, JsonValue.isNull]
    rw [heq] at h
    simp [featureNullProps] at h

/-- C1, witness: the amended round-trip at a concrete valid Feature with
present properties, bbox, id and one foreign member. -/
theorem c1_witness :
    FeatureBase.from_json_object testCodec
        (featureToJsonObject testCodec featureFull) = .ok featureFull := by
  apply c1_round_trip testCodec
  · intro g
    cases g
    rfl
  · intro g h
    cases g
    simp [testCodec] at h
  · intro fm h
    have hfm : [(("other_member" : String), JsonValue.str "some_value")] = fm := by
      simpa [featureFull] using h
    rw [← hfm]
    refine ⟨by simp, by simp, ?_⟩
    intro a ha
    rw [List.mem_singleton] at ha
    subst ha
    decide
  · rfl

/-- C2: the encoder is total and never fails: with every serde_json::to_value
unwrap of the source made an explicit Option step, encoding always succeeds
and returns exactly the total encoder's output, so every panic branch is
unreachable. -/
theorem c2_encoder_total {G : Type} (C : GeometryCodec G)
    (feature : FeatureBase G) :
    featureToJsonObjectChecked C feature
      = some (featureToJsonObject C feature) := by
  obtain ⟨obb, og, oid, oprops, ofm⟩ := feature
  cases obb <;> cases oid <;> cases oprops <;> cases ofm <;> rfl

/-- C3: the encoder performs exactly the claimed fixed-order insertion
sequence: it equals the fold of map inserts over the list
type, geometry, properties, bbox only if present, id only if present, then
each foreign member in stored order with its key exactly as stored. -/
theorem c3_insertion_order {G : Type} (C : GeometryCodec G)
    (f : FeatureBase G) :
    featureToJsonObject C f = foldIns [] (encodeInsertionOrder C f) := by
  obtain ⟨obb, og, oid, oprops, ofm⟩ := f
  cases obb <;> cases oid <;> cases oprops <;> cases ofm <;> rfl

/-- C4: the encoded object always contains a "properties" key: an encoded
empty object (never JSON null) when the field is None, the stored object when
present; stated for Features whose foreign members do not reuse the key, per
the data model's invariant. -/
theorem c4_properties_always_object {G : Type} (C : GeometryCodec G)
    (f : FeatureBase G)
    (hdisj : ∀ fm, f.foreign_members = some fm → ∀ a ∈ fm, a.1 ≠ "properties") :
    (f.properties = none →
      objGet (featureToJsonObject C f) "properties" = some (.obj [])) ∧
    (∀ p, f.properties = some p →
      objGet (featureToJsonObject C f) "properties" = some (.obj p)) := by
  obtain ⟨obb, og, oid, oprops, ofm⟩ := f
  constructor
  · intro h
    have h' : oprops = none := h
    subst h'
    cases ofm with
    | none =>
      cases obb <;> cases oid <;>
        simp +decide [featureToJsonObject, objInsert, objGet]
    | some fm =>
      have hfm := hdisj fm rfl
      have henc : featureToJsonObject C ⟨obb, og, oid, none, some fm⟩
          = foldIns (featureToJsonObject C ⟨obb, og, oid, none, none⟩) fm := rfl
      rw [henc, objGet_foldIns _ fm _ hfm]
      cases obb <;> cases oid <;>
        simp +decide [featureToJsonObject, objInsert, objGet]
  · intro p h
    have h' : oprops = some p := h
    subst h'
    cases ofm with
    | none =>
      cases obb <;> cases oid <;>
        simp +decide [featureToJsonObject, objInsert, objGet]
    | some fm =>
      have hfm := hdisj fm rfl
      have henc : featureToJsonObject C ⟨obb, og, oid, some p, some fm⟩
          = foldIns (featureToJsonObject C ⟨obb, og, oid, some p, none⟩) fm := rfl
      rw [henc, objGet_foldIns _ fm _ hfm]
      cases obb <;> cases oid <;>
        simp +decide [featureToJsonObject, objInsert, objGet]

/-- C4, witness: the conjunct instances at two concrete Features: one with
properties None (encodes as the empty object, not null), one with stored
empty properties. -/
theorem c4_witness :
    objGet (featureToJsonObject testCodec featureNullProps) "properties"
      = some (.obj []) ∧
    objGet (featureToJsonObject testCodec featureFull) "properties"
      = some (.obj []) := by
  constructor
  · exact (c4_properties_always_object testCodec featureNullProps
      (by intro fm h; simp [featureNullProps] at h)).1 rfl
  · exact (c4_properties_always_object testCodec featureFull
      (by intro fm h
          have : [(("other_member" : String), JsonValue.str "some_value")] = fm := by
            simpa [featureFull] using h
          rw [← this]
          intro a ha
          rw [List.mem_singleton] at ha
          subst ha
          decide)).2 [] rfl

/-- C9: when a foreign member's key collides with a recognized key, the
encoder's final foreign-member insertion overwrites the typed field: the
output object holds the foreign member's value under that key. -/
theorem c9_foreign_member_overwrites {G : Type} (C : GeometryCodec G)
    (f : FeatureBase G) (fm : JsonObject) (k : String) (v : JsonValue)
    (hfm : f.foreign_members = some fm) (_hk : k ∈ reservedKeys)
    (hnd : (fm.map Prod.fst).Nodup) (hget : objGet fm k = some v) :
    objGet (featureToJsonObject C f) k = some v := by
  obtain ⟨obb, og, oid, oprops, ofm⟩ := f
  cases ofm with
  | none => exact absurd hfm (by simp)
  | some fm' =>
    have h' : fm' = fm := by simpa using hfm
    subst h'
    have henc : featureToJsonObject C ⟨obb, og, oid, oprops, some fm'⟩
        = foldIns (featureToJsonObject C ⟨obb, og, oid, oprops, none⟩) fm' := by
      cases oprops <;> rfl
    rw [henc]
    exact objGet_foldIns_mem _ fm' k v hnd hget

/-- C9, witness: a Feature carrying a foreign member keyed "type" encodes to
an object whose "type" entry holds the foreign value, not "Feature". -/
theorem c9_witness :
    objGet (featureToJsonObject testCodec
        ⟨none, some (.point 1 2), none, some [],
         some [("type", JsonValue.str "NotAFeature")]⟩) "type"
      = some (JsonValue.str "NotAFeature") := by
  exact c9_foreign_member_overwrites testCodec _
    [("type", JsonValue.str "NotAFeature")] "type" (JsonValue.str "NotAFeature")
    rfl (by decide) (by decide) (by simp [objGet])

theorem expect_type_ne_expected_object (obj : JsonObject) :
    expect_type obj ≠ .error .GeoJsonExpectedObject := by
  rw [expect_type]
  split <;> simp

theorem get_geometry_ne_expected_object {G : Type} (C : GeometryCodec G)
    (obj : JsonObject) :
    get_geometry C obj ≠ .error .GeoJsonExpectedObject := by
  rw [get_geometry]
  split
  · simp
  · split
    · simp
    · split <;> simp

theorem get_properties_ne_expected_object (obj : JsonObject) :
    get_properties obj ≠ .error .GeoJsonExpectedObject := by
  rw [get_properties]
  split <;> simp

theorem get_id_ne_expected_object (obj : JsonObject) :
    get_id obj ≠ .error .GeoJsonExpectedObject := by
  rw [get_id]
  split <;> simp

theorem get_bbox_ne_expected_object (obj : JsonObject) :
    get_bbox obj ≠ .error .GeoJsonExpectedObject := by
  rw [get_bbox]
  split
  · simp
  · split <;> simp
  · simp

theorem get_foreign_members_ne_error (obj : JsonObject) (e : Error) :
    get_foreign_members obj ≠ .error e := by
  cases obj <;> simp [get_foreign_members]

theorem try_from_object_ne_expected_object {G : Type} (C : GeometryCodec G)
    (obj : JsonObject) :
    FeatureBase.try_from_object C obj ≠ .error .GeoJsonExpectedObject := by
  rw [FeatureBase.try_from_object]
  split
  · rename_i e heq
    intro hc
    rw [Except.error.injEq] at hc
    exact expect_type_ne_expected_object obj (hc ▸ heq)
  · rename_i pr tag o1 heq
    split
    · split
      · rename_i e heq2
        intro hc
        rw [Except.error.injEq] at hc
        exact get_geometry_ne_expected_object C o1 (hc ▸ heq2)
      · rename_i pr2 geom o2 heq2
        split
        · rename_i e heq3
          intro hc
          rw [Except.error.injEq] at hc
          exact get_properties_ne_expected_object o2 (hc ▸ heq3)
        · rename_i pr3 props o3 heq3
          split
          · rename_i e heq4
            intro hc
            rw [Except.error.injEq] at hc
            exact get_id_ne_expected_object o3 (hc ▸ heq4)
          · rename_i pr4 idv o4 heq4
            split
            · rename_i e heq5
              intro hc
              rw [Except.error.injEq] at hc
              exact get_bbox_ne_expected_object o4 (hc ▸ heq5)
            · rename_i pr5 bbv o5 heq5
              split
              · rename_i e heq6
                exact fun hc =>
                  get_foreign_members_ne_error o5 e heq6
              · simp
    · simp

/-- C5: decoding succeeds only when the object holds a "type" key whose value
is exactly the string "Feature"; any other string yields the unknown-type
error; a missing key or a non-string value fails with the expect-type
helper's own error. -/
theorem c5_type_tag {G : Type} (C : GeometryCodec G) (obj : JsonObject) :
    ((∃ f, FeatureBase.try_from_object C obj = .ok f) →
      objGet obj "type" = some (.str "Feature")) ∧
    (∀ s, objGet obj "type" = some (.str s) → s ≠ "Feature" →
      FeatureBase.try_from_object C obj = .error .GeoJsonUnknownType) ∧
    (objGet obj "type" = none →
      FeatureBase.try_from_object C obj = .error (.ExpectedProperty "type")) ∧
    (∀ v, objGet obj "type" = some v → (∀ s, v ≠ .str s) →
      FeatureBase.try_from_object C obj = .error .ExpectedStringValue) := by
  refine ⟨?_, ?_, ?_, ?_⟩
  · rintro ⟨f, hf⟩
    rw [FeatureBase.try_from_object] at hf
    cases hexp : expect_type obj with
    | error e => rw [hexp] at hf; simp at hf
    | ok pr =>
      obtain ⟨tag, o1⟩ := pr
      rw [hexp] at hf
      by_cases ht : tag = "Feature"
      · subst ht
        rw [expect_type] at hexp
        cases hget : objGet obj "type" with
        | none => rw [hget] at hexp; simp at hexp
        | some v =>
          rw [hget] at hexp
          cases v <;> simp at hexp
          rw [hexp.1]
      · simp [ht] at hf
  · intro s hget hne
    rw [FeatureBase.try_from_object, expect_type_of_get obj s hget]
    simp [hne]
  · intro hget
    have h : expect_type obj = .error (.ExpectedProperty "type") := by
      simp [expect_type, hget]
    rw [FeatureBase.try_from_object, h]
  · intro v hget hnv
    have h : expect_type obj = .error .ExpectedStringValue := by
      cases v with
      | str s => exact absurd rfl (hnv s)
      | null => simp [expect_type, hget]
      | bool b => simp [expect_type, hget]
      | num n => simp [expect_type, hget]
      | arr elems => simp [expect_type, hget]
      | obj entries => simp [expect_type, hget]
    rw [FeatureBase.try_from_object, h]

/-- C5, witness: the three failure conjuncts at concrete objects: a wrong
string tag, a missing tag, and a non-string tag. -/
theorem c5_witness :
    FeatureBase.try_from_object testCodec [("type", JsonValue.str "Banana")]
      = .error .GeoJsonUnknownType ∧
    FeatureBase.try_from_object testCodec ([] : JsonObject)
      = .error (.ExpectedProperty "type") ∧
    FeatureBase.try_from_object testCodec [("type", JsonValue.null)]
      = .error .ExpectedStringValue := by
  refine ⟨?_, ?_, ?_⟩
  · exact (c5_type_tag testCodec _).2.1 "Banana" (by simp [objGet]) (by simp)
  · exact (c5_type_tag testCodec _).2.2.1 rfl
  · exact (c5_type_tag testCodec _).2.2.2 JsonValue.null (by simp [objGet])
      (fun s h => JsonValue.noConfusion h)

/-- C6: the value-level decode entry point returns the expected-object error
exactly when the value is not a JSON object, and otherwise returns the
object-level decoder's result on the value's object. -/
theorem c6_value_entry {G : Type} (C : GeometryCodec G) (v : JsonValue) :
    (∀ o, v = .obj o →
      FeatureBase.from_json_value C v = FeatureBase.from_json_object C o) ∧
    (FeatureBase.from_json_value C v = .error .GeoJsonExpectedObject ↔
      ∀ o, v ≠ .obj o) := by
  constructor
  · intro o h
    subst h
    rfl
  · constructor
    · intro h o hv
      subst hv
      exact try_from_object_ne_expected_object C o h
    · intro h
      cases v with
      | null => rfl
      | bool b => rfl
      | num n => rfl
      | str s => rfl
      | arr elems => rfl
      | obj entries => exact absurd rfl (h entries)

/-- C6, witness: the two directions at concrete values: a number fails with
the expected-object error, and an object delegates to the object decoder. -/
theorem c6_witness :
    FeatureBase.from_json_value testCodec (JsonValue.num (.int 3))
      = .error .GeoJsonExpectedObject ∧
    FeatureBase.from_json_value testCodec (JsonValue.obj [])
      = FeatureBase.from_json_object testCodec [] := by
  constructor
  · exact (c6_value_entry testCodec _).2.mpr
      (fun o h => JsonValue.noConfusion h)
  · exact (c6_value_entry testCodec _).1 [] rfl

/-- C7: id extraction: a JSON object or explicit null at "id" fails with the
invalid-identifier-type error; a number n yields Id.Number n and a string s
yields Id.String s (consuming the key); an absent key yields None without
error. -/
theorem c7_id_extraction (obj : JsonObject) :
    (∀ o, objGet obj "id" = some (.obj o) →
      get_id obj = .error .FeatureInvalidIdentifierType) ∧
    (objGet obj "id" = some .null →
      get_id obj = .error .FeatureInvalidIdentifierType) ∧
    (∀ n, objGet obj "id" = some (.num n) →
      get_id obj = .ok (some (.Number n), objRemove obj "id")) ∧
    (∀ s, objGet obj "id" = some (.str s) →
      get_id obj = .ok (some (.String s), objRemove obj "id")) ∧
    (objGet obj "id" = none → get_id obj = .ok (none, obj)) := by
  refine ⟨?_, ?_, ?_, ?_, ?_⟩
  · intro o h
    simp [get_id, h]
  · intro h
    simp [get_id, h]
  · intro n h
    simp [get_id, h]
  · intro s h
    simp [get_id, h]
  · intro h
    simp [get_id, h]

/-- C7, witness: the five conjuncts at the claim's concrete inputs: id held
as an empty object, as null, as the number 0, as the string "foo", and
absent. -/
theorem c7_witness :
    get_id [("id", JsonValue.obj [])]
      = .error .FeatureInvalidIdentifierType ∧
    get_id [("id", JsonValue.null)]
      = .error .FeatureInvalidIdentifierType ∧
    get_id [("id", JsonValue.num (.int 0))]
      = .ok (some (.Number (.int 0)), []) ∧
    get_id [("id", JsonValue.str "foo")]
      = .ok (some (.String "foo"), []) ∧
    get_id ([] : JsonObject) = .ok (none, []) := by
  refine ⟨?_, ?_, ?_, ?_, ?_⟩
  · exact (c7_id_extraction _).1 [] (by simp [objGet])
  · exact (c7_id_extraction _).2.1 (by simp [objGet])
  · have h := (c7_id_extraction [("id", JsonValue.num (.int 0))]).2.2.1
      (.int 0) (by simp [objGet])
    simpa [objRemove] using h
  · have h := (c7_id_extraction [("id", JsonValue.str "foo")]).2.2.2.1
      "foo" (by simp [objGet])
    simpa [objRemove] using h
  · exact (c7_id_extraction _).2.2.2.2 rfl

/-- C8: decoding is fail-fast: whichever extraction step (type tag, geometry,
properties, id, bbox, foreign members, in that order) fails first, its error
is returned unchanged and no Feature is produced; when every step succeeds
the decoder returns the assembled Feature. -/
theorem c8_fail_fast {G : Type} (C : GeometryCodec G) (obj : JsonObject) :
    (∀ e, expect_type obj = .error e →
      FeatureBase.try_from_object C obj = .error e) ∧
    (∀ e o1, expect_type obj = .ok ("Feature", o1) →
      get_geometry C o1 = .error e →
      FeatureBase.try_from_object C obj = .error e) ∧
    (∀ e o1 g o2, expect_type obj = .ok ("Feature", o1) →
      get_geometry C o1 = .ok (g, o2) → get_properties o2 = .error e →
      FeatureBase.try_from_object C obj = .error e) ∧
    (∀ e o1 g o2 pr o3, expect_type obj = .ok ("Feature", o1) →
      get_geometry C o1 = .ok (g, o2) → get_properties o2 = .ok (pr, o3) →
      get_id o3 = .error e →
      FeatureBase.try_from_object C obj = .error e) ∧
    (∀ e o1 g o2 pr o3 i o4, expect_type obj = .ok ("Feature", o1) →
      get_geometry C o1 = .ok (g, o2) → get_properties o2 = .ok (pr, o3) →
      get_id o3 = .ok (i, o4) → get_bbox o4 = .error e →
      FeatureBase.try_from_object C obj = .error e) ∧
    (∀ e o1 g o2 pr o3 i o4 bb o5, expect_type obj = .ok ("Feature", o1) →
      get_geometry C o1 = .ok (g, o2) → get_properties o2 = .ok (pr, o3) →
      get_id o3 = .ok (i, o4) → get_bbox o4 = .ok (bb, o5) →
      get_foreign_members o5 = .error e →
      FeatureBase.try_from_object C obj = .error e) ∧
    (∀ o1 g o2 pr o3 i o4 bb o5 fm, expect_type obj = .ok ("Feature", o1) →
      get_geometry C o1 = .ok (g, o2) → get_properties o2 = .ok (pr, o3) →
      get_id o3 = .ok (i, o4) → get_bbox o4 = .ok (bb, o5) →
      get_foreign_members o5 = .ok fm →
      FeatureBase.try_from_object C obj = .ok ⟨bb, g, i, pr, fm⟩) := by
  refine ⟨?_, ?_, ?_, ?_, ?_, ?_, ?_⟩
  · intro e h1
    simp [FeatureBase.try_from_object, h1]
  · intro e o1 h1 h2
    simp [FeatureBase.try_from_object, h1, h2]
  · intro e o1 g o2 h1 h2 h3
    simp [FeatureBase.try_from_object, h1, h2, h3]
  · intro e o1 g o2 pr o3 h1 h2 h3 h4
    simp [FeatureBase.try_from_object, h1, h2, h3, h4]
  · intro e o1 g o2 pr o3 i o4 h1 h2 h3 h4 h5
    simp [FeatureBase.try_from_object, h1, h2, h3, h4, h5]
  · intro e o1 g o2 pr o3 i o4 bb o5 h1 h2 h3 h4 h5 h6
    simp [FeatureBase.try_from_object, h1, h2, h3, h4, h5, h6]
  · intro o1 g o2 pr o3 i o4 bb o5 fm h1 h2 h3 h4 h5 h6
    simp [FeatureBase.try_from_object, h1, h2, h3, h4, h5, h6]

/-- C8, witness: decoding an object whose geometry value is a bare number
stops at the geometry step with its error (the spec's invalid-geometry
example). -/
theorem c8_witness :
    FeatureBase.try_from_object testCodec
        [("geometry", JsonValue.num (.float "3.14")),
         ("properties", JsonValue.obj []), ("type", JsonValue.str "Feature")]
      = .error .FeatureInvalidGeometryValue := by
  apply (c8_fail_fast testCodec _).2.1 .FeatureInvalidGeometryValue
    [("geometry", JsonValue.num (.float "3.14")),
     ("properties", JsonValue.obj [])]
  · simp [expect_type, objGet, objRemove]
  · simp [get_geometry, objGet, testCodec, JsonValue.isNull]

/-- C10: the generic serde Deserialize hook never surfaces the typed decode
error: when the generic phase produced an object and the typed decoder fails
with e, the hook returns the deserializer's custom error built from e's
string rendering. -/
theorem c10_deserialize_custom_error {G E : Type} (C : GeometryCodec G)
    (custom : String → E) (deserialized : Except E JsonObject)
    (val : JsonObject) (e : Error)
    (h1 : deserialized = .ok val)
    (h2 : FeatureBase.from_json_object C val = .error e) :
    deserializeFeatureBase C custom deserialized
      = .error (custom (Error.render e)) := by
  subst h1
  simp [deserializeFeatureBase, h2]

/-- C10, witness: the hook at the empty object (whose typed decode fails on
the missing type tag) with the identity custom-error constructor. -/
theorem c10_witness :
    deserializeFeatureBase testCodec (fun s => s)
        (.ok ([] : JsonObject))
      = .error (Error.render (.ExpectedProperty "type")) := by
  exact c10_deserialize_custom_error testCodec (fun s => s) _ []
    (.ExpectedProperty "type") rfl rfl

end GeoJson
